import Mathlib

/-!
Verification of the VW1871 / FlowIQ2101 frame-extraction pipeline.

Shallow embedding of `src/vw1871_frame_extractor.py` (class
`VW1871FrameExtractor`) and `src/vw1871_preprocessor.py` (method
`VW1871Preprocessor._strip_wrapper`).  Hex-encoded byte buffers are
modelled as `List Char`, exactly as the Python code manipulates them
(the code works on hex strings throughout; two hex digits form one
byte).  Python string primitives (`startswith`, `endswith`, `in`,
`find`, slicing, `upper`, `lower`) are modelled by executable Lean
functions below.
-/

/-- Python `s.upper()` on a hex string. -/
def pyUpper (s : List Char) : List Char := s.map Char.toUpper

/-- Python `s.lower()` on a hex string. -/
def pyLower (s : List Char) : List Char := s.map Char.toLower

/-- Python `s.startswith(p)`: `p` is an initial segment of `s`. -/
def isPre : List Char → List Char → Bool
  | [], _ => true
  | _ :: _, [] => false
  | a :: as, b :: bs => decide (a = b) && isPre as bs

/-- Python `s.endswith(suf)`: `suf` is a final segment of `s`. -/
def endsWith (suf s : List Char) : Bool :=
  isPre suf (s.drop (s.length - suf.length))

/-- Helper for Python `s.find(sub)`: index of the earliest occurrence of
`sub` in `s`, or `none` (Python returns `-1`). -/
def pyFindAux (sub : List Char) : List Char → Option Nat
  | [] => if isPre sub [] then some 0 else none
  | c :: rest =>
    if isPre sub (c :: rest) then some 0
    else (pyFindAux sub rest).map (· + 1)

/-- Python `s.find(sub, pos)`: earliest index at or after `pos` where
`sub` occurs in `s`. -/
def pyFind (s sub : List Char) (pos : Nat) : Option Nat :=
  (pyFindAux sub (s.drop pos)).map (· + pos)

/-- Python `sub in s` (substring containment). -/
def containsSub (sub s : List Char) : Bool :=
  (pyFindAux sub s).isSome

/-- Compact-frame anchor pattern from the source: `25442D2C`. -/
def COMPACT_ANCHOR : List Char := "25442D2C".toList

/-- Full-frame anchor pattern from the source: `30442D2C`. -/
def FULL_ANCHOR : List Char := "30442D2C".toList

/-- Target meter identifier from `validate_frame`: `703749741F16`. -/
def METER_ID : List Char := "703749741F16".toList

/-- Wrapper start delimiter as written in the extractor: `FBFBFBF0`. -/
def WRAP_START : List Char := "FBFBFBF0".toList

/-- Wrapper end delimiter as written in the extractor: `FEFE0E0F`. -/
def WRAP_END : List Char := "FEFE0E0F".toList

/-- Lower-case wrapper start delimiter as written in
`VW1871Preprocessor._strip_wrapper`. -/
def WRAP_START_L : List Char := "fbfbfbf0".toList

/-- Lower-case wrapper end delimiter as written in
`VW1871Preprocessor._strip_wrapper`. -/
def WRAP_END_L : List Char := "fefe0e0f".toList

/-- The wrapper test of `VW1871Preprocessor._strip_wrapper`:
`hd.startswith('fbfbfbf0') and hd.endswith('fefe0e0f') and len(hd) > 16`
where `hd = hex_data.lower()`. -/
def has_wrapper (hex_data : List Char) : Bool :=
  isPre WRAP_START_L (pyLower hex_data)
    && endsWith WRAP_END_L (pyLower hex_data)
    && decide (16 < (pyLower hex_data).length)

/-- `VW1871Preprocessor._strip_wrapper` (src/vw1871_preprocessor.py,
lines 71-81).  The Python code lower-cases the input, tests for the
wrapper, and returns `(hd[8:-8].upper(), 'wrapper-stripped')` or
`(hex_data.upper(), 'no-wrapper')`; the string reason is modelled by a
Bool (`true` = wrapper-stripped). -/
def strip_wrapper (hex_data : List Char) : List Char × Bool :=
  if has_wrapper hex_data then
    (pyUpper (((pyLower hex_data).drop 8).take ((pyLower hex_data).length - 16)),
     true)
  else
    (pyUpper hex_data, false)

/-- The anchor-containment test used by the extractor:
`'25442D2C' in hex_data or '30442D2C' in hex_data`. -/
def containsAnchor (s : List Char) : Bool :=
  containsSub COMPACT_ANCHOR s || containsSub FULL_ANCHOR s

/-- `VW1871FrameExtractor.extract_frames_59_70_bytes`
(src/vw1871_frame_extractor.py, lines 47-77).  Python slicing
`hex_data[8:-8]` is `(drop 8).take (length - 16)`. -/
def extract_frames_59_70_bytes (hex_data : List Char) : List (List Char) :=
  if hex_data.length = 118 then
    if isPre WRAP_START hex_data && endsWith WRAP_END hex_data then
      if 76 ≤ ((hex_data.drop 8).take (hex_data.length - 16)).length then
        [(hex_data.drop 8).take (hex_data.length - 16)]
      else []
    else
      if containsAnchor hex_data then [hex_data] else []
  else if hex_data.length = 140 then
    if isPre WRAP_START hex_data && endsWith WRAP_END hex_data then
      if 98 ≤ ((hex_data.drop 8).take (hex_data.length - 16)).length then
        [(hex_data.drop 8).take (hex_data.length - 16)]
      else []
    else
      if containsAnchor hex_data then [hex_data] else []
  else []

/-- `VW1871FrameExtractor.extract_frames_96_bytes`
(src/vw1871_frame_extractor.py, lines 79-94).  Python slicing
`hex_data[108:-8]` is `(drop 108).take (length - 116)`. -/
def extract_frames_96_bytes (hex_data : List Char) : List (List Char) :=
  if hex_data.length = 192 then
    if 116 < hex_data.length then
      if 76 ≤ ((hex_data.drop 108).take (hex_data.length - 116)).length
          ∧ containsAnchor ((hex_data.drop 108).take (hex_data.length - 116)) = true then
        [(hex_data.drop 108).take (hex_data.length - 116)]
      else []
    else []
  else []

/-- One iteration of the `while` loop of
`VW1871FrameExtractor.extract_frames_244_bytes` (lines 107-144): find
the earliest compact anchor and the earliest full anchor at or after
`pos`, pick whichever comes first, and return the window
`(start, hex-digit count)` to cut, or `none` when the loop breaks
(no anchor found, or the selected window would overrun the buffer). -/
def step244 (data : List Char) (pos : Nat) : Option (Nat × Nat) :=
  match pyFind data COMPACT_ANCHOR pos, pyFind data FULL_ANCHOR pos with
  | some c, some f =>
    if c < f then
      if c + 76 ≤ data.length then some (c, 76) else none
    else
      if f + 98 ≤ data.length then some (f, 98) else none
  | some c, none => if c + 76 ≤ data.length then some (c, 76) else none
  | none, some f => if f + 98 ≤ data.length then some (f, 98) else none
  | none, none => none

/-- The scan loop of `extract_frames_244_bytes`, collecting the
`(start, size)` windows of the extracted frames.  The loop is run with
an explicit iteration bound `fuel`; the bound `data.length + 1` used
below provably never binds, because the cursor strictly advances by at
least a full window (76 hex digits) on each emitted frame — see the
fuel-irrelevance theorem for claim C10, which shows the result is the
same for every sufficiently large bound, i.e. the unbounded `while`
loop terminates with this same value. -/
def scan244F : Nat → List Char → Nat → List (Nat × Nat)
  | 0, _, _ => []
  | fuel + 1, data, pos =>
    if pos < data.length then
      match step244 data pos with
      | some w => (w.1, w.2) :: scan244F fuel data (w.1 + w.2)
      | none => []
    else []

/-- `VW1871FrameExtractor.extract_frames_244_bytes` (lines 96-146):
upper-case the input (`data = hex_data.upper()`), scan for anchor
windows, and cut `data[next_pos : next_pos + size]` for each window. -/
def extract_frames_244_bytes (hex_data : List Char) : List (List Char) :=
  (scan244F ((pyUpper hex_data).length + 1) (pyUpper hex_data) 0).map
    (fun w => ((pyUpper hex_data).drop w.1).take w.2)

/-- `VW1871FrameExtractor.validate_frame` (lines 185-198): minimum
length 20 hex digits, the frame starts with one of the two anchors,
and the meter id `703749741F16` occurs somewhere in the frame
(Python `'703749741F16' not in frame`). -/
def validate_frame (frame : List Char) : Bool :=
  if frame.length < 20 then false
  else if !(isPre COMPACT_ANCHOR frame || isPre FULL_ANCHOR frame) then false
  else if !(containsSub METER_ID frame) then false
  else true

/-- `VW1871FrameExtractor.extract_wmbus_frames` (lines 148-183):
dispatch on the hex length, with the 244-byte scan reused as fallback
for unknown sizes that contain an anchor, then keep only the frames
accepted by `validate_frame`. -/
def extract_wmbus_frames (hex_data : List Char) : List (List Char) :=
  (if hex_data.length = 118 ∨ hex_data.length = 140 then
      extract_frames_59_70_bytes hex_data
   else if hex_data.length = 192 then
      extract_frames_96_bytes hex_data
   else if hex_data.length = 488 then
      extract_frames_244_bytes hex_data
   else if containsAnchor hex_data then
      extract_frames_244_bytes hex_data
   else []).filter validate_frame

/-- Value of one hex digit, as `int(c, 16)` would give in Python. -/
def hexDigitVal (c : Char) : Nat :=
  if '0' ≤ c ∧ c ≤ '9' then c.toNat - 48
  else if 'A' ≤ c ∧ c ≤ 'F' then c.toNat - 55
  else if 'a' ≤ c ∧ c ≤ 'f' then c.toNat - 87
  else 0

/-- The declared length byte of a telegram: the value of its first two
hex digits (`int(frame[0:2], 16)` in the preprocessor's
`_locate_real_frame`). -/
def firstByte : List Char → Nat
  | a :: b :: _ => 16 * hexDigitVal a + hexDigitVal b
  | _ => 0

/-- Byte count of a hex string (two hex digits per byte). -/
def byteLen (s : List Char) : Nat := s.length / 2

/-- A 59-byte (118 hex digit) unwrapped notification: compact anchor,
meter id, zero payload.  It is emitted whole by the 59/70-byte rule. -/
def sample5970 : List Char :=
  "25442D2C".toList ++ METER_ID ++ List.replicate 98 '0'

/-- A 38-byte (76 hex digit) compact frame: anchor, meter id, zero
payload. -/
def sample76 : List Char :=
  "25442D2C".toList ++ METER_ID ++ List.replicate 56 '0'

/-- A 49-byte (98 hex digit) full frame: anchor followed by zero
payload. -/
def sampleFull98 : List Char :=
  "30442D2C".toList ++ List.replicate 90 '0'

/-- 292 hex digits of anchor-free padding. -/
def sampleRest292 : List Char := List.replicate 292 '0'

/-- A 59-byte unwrapped notification whose meter id sits 14 bytes after
the anchor instead of immediately after it. -/
def sampleOffsetId : List Char :=
  "25442D2C".toList ++ List.replicate 20 '0' ++ METER_ID ++ List.replicate 78 '0'

/-- A minimal wrapped buffer: start delimiter, one byte, end
delimiter. -/
def sampleWrapped18 : List Char := "FBFBFBF0AAFEFE0E0F".toList

/-- A doubly wrapped buffer: stripping it once leaves a core that
itself starts and ends with the delimiters. -/
def sampleNested34 : List Char :=
  "FBFBFBF0FBFBFBF0AAFEFE0E0FFEFE0E0F".toList

/-- A 96-byte (192 hex digit) notification whose characters 108..183
form the valid compact frame `sample76`. -/
def sample192 : List Char :=
  List.replicate 108 '0' ++ sample76 ++ List.replicate 8 '0'

/-- A wrapped 59-byte (118 hex digit) notification. -/
def sampleWrapped118 : List Char :=
  "FBFBFBF0".toList ++ List.replicate 102 '0' ++ "FEFE0E0F".toList

/-- A 10-hex-digit buffer of unrecognized size containing the compact
anchor. -/
def sampleFallback10 : List Char := "25442D2C00".toList

example : isPre COMPACT_ANCHOR ("25442D2CAB".toList) = true := by decide
example : endsWith WRAP_END ("00FEFE0E0F".toList) = true := by decide
example : pyFind ("AA25442D2C".toList) COMPACT_ANCHOR 0 = some 2 := by decide
example : containsSub METER_ID ("00703749741F1600".toList) = true := by decide
example :
    strip_wrapper ("FBFBFBF0AAFEFE0E0F".toList) = ("AA".toList, true) := by
  decide

/-! ### Basic facts about the string primitives -/

theorem isPre_refl : ∀ (l : List Char), isPre l l = true
  | [] => rfl
  | a :: as => by simp [isPre, isPre_refl as]

theorem isPre_extend : ∀ (l s t : List Char), isPre l s = true → isPre l (s ++ t) = true
  | [], _, _, _ => rfl
  | a :: as, [], _, h => by simp [isPre] at h
  | a :: as, b :: bs, t, h => by
    simp only [isPre, Bool.and_eq_true, decide_eq_true_eq] at h
    simp only [List.cons_append, isPre, Bool.and_eq_true, decide_eq_true_eq]
    exact ⟨h.1, isPre_extend as bs t h.2⟩

theorem isPre_self_append (l t : List Char) : isPre l (l ++ t) = true :=
  isPre_extend l l t (isPre_refl l)

theorem isPre_cons_dest {a : Char} {l s : List Char}
    (h : isPre (a :: l) s = true) : ∃ t, s = a :: t ∧ isPre l t = true := by
  cases s with
  | nil => simp [isPre] at h
  | cons b bs =>
    simp only [isPre, Bool.and_eq_true, decide_eq_true_eq] at h
    obtain ⟨hab, h2⟩ := h
    subst hab
    exact ⟨bs, rfl, h2⟩

theorem isPre_take : ∀ (l s : List Char) (n : Nat),
    isPre l s = true → l.length ≤ n → isPre l (s.take n) = true
  | [], _, _, _, _ => rfl
  | a :: as, [], _, h, _ => by simp [isPre] at h
  | a :: as, b :: bs, 0, _, hn => by simp at hn
  | a :: as, b :: bs, n + 1, h, hn => by
    simp only [isPre, Bool.and_eq_true, decide_eq_true_eq] at h
    simp only [List.take_succ_cons, isPre, Bool.and_eq_true, decide_eq_true_eq]
    exact ⟨h.1, isPre_take as bs n h.2 (by simpa using hn)⟩

theorem isPre_map (f : Char → Char) : ∀ (l s : List Char),
    isPre l s = true → isPre (l.map f) (s.map f) = true
  | [], _, _ => rfl
  | a :: as, [], h => by simp [isPre] at h
  | a :: as, b :: bs, h => by
    simp only [isPre, Bool.and_eq_true, decide_eq_true_eq] at h
    simp only [List.map_cons, isPre, Bool.and_eq_true, decide_eq_true_eq]
    exact ⟨by rw [h.1], isPre_map f as bs h.2⟩

theorem endsWith_map (f : Char → Char) (suf s : List Char)
    (h : endsWith suf s = true) : endsWith (suf.map f) (s.map f) = true := by
  unfold endsWith at h ⊢
  rw [List.length_map, List.length_map, ← List.map_drop]
  exact isPre_map f _ _ h

theorem pyFindAux_of_pre {sub s : List Char} (h : isPre sub s = true) :
    pyFindAux sub s = some 0 := by
  cases s with
  | nil => simp [pyFindAux, h]
  | cons c rest => simp [pyFindAux, h]

theorem pyFindAux_some_pre (sub : List Char) : ∀ (s : List Char) (j : Nat),
    pyFindAux sub s = some j → isPre sub (s.drop j) = true := by
  intro s
  induction s with
  | nil =>
    intro j h
    unfold pyFindAux at h
    by_cases hp : isPre sub [] = true
    · rw [if_pos hp] at h
      obtain rfl : (0 : Nat) = j := Option.some_inj.mp h
      simpa using hp
    · rw [if_neg hp] at h
      exact absurd h (by simp)
  | cons c rest ih =>
    intro j h
    unfold pyFindAux at h
    by_cases hp : isPre sub (c :: rest) = true
    · rw [if_pos hp] at h
      obtain rfl : (0 : Nat) = j := Option.some_inj.mp h
      simpa using hp
    · rw [if_neg hp] at h
      cases hfa : pyFindAux sub rest with
      | none => rw [hfa] at h; simp at h
      | some j1 =>
        rw [hfa] at h
        simp only [Option.map_some'] at h
        obtain rfl : j1 + 1 = j := Option.some_inj.mp h
        simpa using ih j1 hfa

theorem pyFindAux_none_no_occ (sub : List Char) : ∀ (s : List Char),
    pyFindAux sub s = none → ∀ i, isPre sub (s.drop i) = false := by
  intro s
  induction s with
  | nil =>
    intro h i
    unfold pyFindAux at h
    by_cases hp : isPre sub [] = true
    · rw [if_pos hp] at h
      exact absurd h (by simp)
    · simpa [List.drop_nil] using hp
  | cons c rest ih =>
    intro h i
    unfold pyFindAux at h
    by_cases hp : isPre sub (c :: rest) = true
    · rw [if_pos hp] at h
      exact absurd h (by simp)
    · rw [if_neg hp] at h
      cases hfa : pyFindAux sub rest with
      | some j1 => rw [hfa] at h; simp at h
      | none =>
        cases i with
        | zero => simpa using hp
        | succ i => simpa using ih hfa i

theorem containsSub_iff (sub s : List Char) :
    containsSub sub s = true ↔ ∃ i, isPre sub (s.drop i) = true := by
  constructor
  · intro h
    unfold containsSub at h
    obtain ⟨j, hj⟩ := Option.isSome_iff_exists.mp h
    exact ⟨j, pyFindAux_some_pre sub s j hj⟩
  · intro ⟨i, hi⟩
    unfold containsSub
    cases hf : pyFindAux sub s with
    | some j => simp
    | none => simp [pyFindAux_none_no_occ sub s hf i] at hi

theorem containsSub_false_aux {sub s : List Char}
    (h : containsSub sub s = false) : pyFindAux sub s = none := by
  unfold containsSub at h
  cases hf : pyFindAux sub s with
  | some j => simp [hf] at h
  | none => rfl

theorem pyFind_ge {s sub : List Char} {pos i : Nat}
    (h : pyFind s sub pos = some i) : pos ≤ i := by
  unfold pyFind at h
  obtain ⟨j, _, rfl⟩ := Option.map_eq_some'.mp h
  omega

theorem pyFind_pre {s sub : List Char} {pos i : Nat}
    (h : pyFind s sub pos = some i) : isPre sub (s.drop i) = true := by
  unfold pyFind at h
  obtain ⟨j, hj, rfl⟩ := Option.map_eq_some'.mp h
  have := pyFindAux_some_pre sub (s.drop pos) j hj
  rw [List.drop_drop] at this
  rwa [Nat.add_comm pos j] at this

theorem pyFind_of_pre_at {s sub : List Char} {pos : Nat}
    (h : isPre sub (s.drop pos) = true) : pyFind s sub pos = some pos := by
  unfold pyFind
  rw [pyFindAux_of_pre h]
  simp

/-! ### Facts about the 244-byte scan loop -/

theorem step244_some {data : List Char} {pos : Nat} {w : Nat × Nat}
    (h : step244 data pos = some w) :
    pos ≤ w.1 ∧ 76 ≤ w.2 ∧ w.1 + w.2 ≤ data.length ∧
      ((w.2 = 76 ∧ isPre COMPACT_ANCHOR (data.drop w.1) = true) ∨
       (w.2 = 98 ∧ isPre FULL_ANCHOR (data.drop w.1) = true)) := by
  unfold step244 at h
  cases hc : pyFind data COMPACT_ANCHOR pos with
  | none =>
    cases hf : pyFind data FULL_ANCHOR pos with
    | none => simp [hc, hf] at h
    | some f =>
      rw [hc, hf] at h
      by_cases hfit : f + 98 ≤ data.length
      · simp only [hfit, if_true, Option.some_inj] at h
        subst h
        exact ⟨pyFind_ge hf, by omega, by omega,
          Or.inr ⟨rfl, pyFind_pre hf⟩⟩
      · simp [hfit] at h
  | some c =>
    cases hf : pyFind data FULL_ANCHOR pos with
    | none =>
      rw [hc, hf] at h
      by_cases hfit : c + 76 ≤ data.length
      · simp only [hfit, if_true, Option.some_inj] at h
        subst h
        exact ⟨pyFind_ge hc, by omega, by omega,
          Or.inl ⟨rfl, pyFind_pre hc⟩⟩
      · simp [hfit] at h
    | some f =>
      rw [hc, hf] at h
      by_cases hcf : c < f
      · by_cases hfit : c + 76 ≤ data.length
        · simp only [hcf, if_true, hfit, Option.some_inj] at h
          subst h
          exact ⟨pyFind_ge hc, by omega, by omega,
            Or.inl ⟨rfl, pyFind_pre hc⟩⟩
        · simp [hcf, hfit] at h
      · by_cases hfit : f + 98 ≤ data.length
        · simp only [hcf, if_false, hfit, if_true, Option.some_inj] at h
          subst h
          exact ⟨pyFind_ge hf, by omega, by omega,
            Or.inr ⟨rfl, pyFind_pre hf⟩⟩
        · simp [hcf, hfit] at h

theorem scan244F_succ_some (fuel : Nat) (data : List Char) (pos : Nat)
    (w : Nat × Nat) (hlt : pos < data.length) (hs : step244 data pos = some w) :
    scan244F (fuel + 1) data pos = (w.1, w.2) :: scan244F fuel data (w.1 + w.2) := by
  simp [scan244F, hlt, hs]

theorem scan244F_succ_none (fuel : Nat) (data : List Char) (pos : Nat)
    (hlt : pos < data.length) (hs : step244 data pos = none) :
    scan244F (fuel + 1) data pos = [] := by
  simp [scan244F, hlt, hs]

theorem scan244F_exit (fuel : Nat) (data : List Char) (pos : Nat)
    (h : ¬ pos < data.length) : scan244F fuel data pos = [] := by
  cases fuel <;> simp [scan244F, h]

theorem scan244F_congr (fa : Nat) : ∀ (fb : Nat) (data : List Char) (pos : Nat),
    data.length - pos < fa → data.length - pos < fb →
    scan244F fa data pos = scan244F fb data pos := by
  induction fa with
  | zero => intro fb data pos ha hb; omega
  | succ fa ih =>
    intro fb data pos ha hb
    cases fb with
    | zero => omega
    | succ fb =>
      by_cases hlt : pos < data.length
      · cases hs : step244 data pos with
        | none =>
          rw [scan244F_succ_none fa data pos hlt hs,
              scan244F_succ_none fb data pos hlt hs]
        | some w =>
          rw [scan244F_succ_some fa data pos w hlt hs,
              scan244F_succ_some fb data pos w hlt hs]
          have hb1 := step244_some hs
          have hrec : data.length - (w.1 + w.2) < fa := by omega
          have hrec2 : data.length - (w.1 + w.2) < fb := by omega
          rw [ih fb data (w.1 + w.2) hrec hrec2]
      · rw [scan244F_exit (fa + 1) data pos hlt, scan244F_exit (fb + 1) data pos hlt]

theorem scan244F_inv (fuel : Nat) : ∀ (data : List Char) (pos : Nat),
    (∀ w ∈ scan244F fuel data pos,
        pos ≤ w.1 ∧ 76 ≤ w.2 ∧ w.1 + w.2 ≤ data.length ∧
          ((w.2 = 76 ∧ isPre COMPACT_ANCHOR (data.drop w.1) = true) ∨
           (w.2 = 98 ∧ isPre FULL_ANCHOR (data.drop w.1) = true)))
    ∧ List.Pairwise (fun w v => w.1 + w.2 ≤ v.1) (scan244F fuel data pos)
    ∧ 76 * (scan244F fuel data pos).length ≤ data.length - pos := by
  induction fuel with
  | zero =>
    intro data pos
    refine ⟨by simp [scan244F], by simp [scan244F], by simp [scan244F]⟩
  | succ fuel ih =>
    intro data pos
    by_cases hlt : pos < data.length
    · cases hs : step244 data pos with
      | none =>
        rw [scan244F_succ_none fuel data pos hlt hs]
        exact ⟨by simp, by simp, by simp⟩
      | some w =>
        rw [scan244F_succ_some fuel data pos w hlt hs]
        have hb := step244_some hs
        obtain ⟨hb1, hb2, hb3, hb4⟩ := hb
        obtain ⟨ihm, ihp, ihc⟩ := ih data (w.1 + w.2)
        refine ⟨?_, ?_, ?_⟩
        · intro v hv
          rcases List.mem_cons.mp hv with rfl | hv2
          · exact ⟨hb1, hb2, hb3, hb4⟩
          · obtain ⟨hv1, hv2', hv3, hv4⟩ := ihm v hv2
            exact ⟨by omega, hv2', hv3, hv4⟩
        · rw [List.pairwise_cons]
          refine ⟨fun v hv => ?_, ihp⟩
          exact (ihm v hv).1
        · simp only [List.length_cons]
          omega
    · rw [scan244F_exit (fuel + 1) data pos hlt]
      exact ⟨by simp, by simp, by simp⟩

/-! ### Facts about the wrapper stripper -/

theorem map_eq_self_mem {f : Char → Char} :
    ∀ {l : List Char}, l.map f = l → ∀ c ∈ l, f c = c := by
  intro l
  induction l with
  | nil => intro _ c hc; simp at hc
  | cons a l ih =>
    intro h c hc
    rw [List.map_cons, List.cons.injEq] at h
    rcases List.mem_cons.mp hc with rfl | hc2
    · exact h.1
    · exact ih h.2 c hc2

theorem map_eq_self_of_mem {f : Char → Char} :
    ∀ {l : List Char}, (∀ c ∈ l, f c = c) → l.map f = l := by
  intro l
  induction l with
  | nil => intro _; rfl
  | cons a l ih =>
    intro h
    rw [List.map_cons, List.cons.injEq]
    exact ⟨h a (List.mem_cons_self a l), ih fun c hc => h c (List.mem_cons_of_mem a hc)⟩

theorem pyLower_length (s : List Char) : (pyLower s).length = s.length := by
  simp [pyLower]

theorem strip_wrapper_not_wrapped {s : List Char} (hu : pyUpper s = s)
    (h : has_wrapper s = false) : strip_wrapper s = (s, false) := by
  unfold strip_wrapper
  simp [h, hu]

theorem strip_wrapper_wrapped {s : List Char} (hul : pyUpper (pyLower s) = s)
    (h : has_wrapper s = true) :
    strip_wrapper s = ((s.drop 8).take (s.length - 16), true) := by
  unfold strip_wrapper
  rw [if_pos h]
  have hul2 : (pyLower s).map Char.toUpper = s := hul
  have hc : pyUpper (((pyLower s).drop 8).take ((pyLower s).length - 16))
      = (s.drop 8).take (s.length - 16) := by
    unfold pyUpper
    rw [List.map_take, List.map_drop, hul2, pyLower_length]
  rw [hc]

theorem has_wrapper_iff {s : List Char} (hul : pyUpper (pyLower s) = s) :
    has_wrapper s = true ↔
      (isPre WRAP_START s = true ∧ endsWith WRAP_END s = true ∧ 16 < s.length) := by
  have hul2 : (pyLower s).map Char.toUpper = s := hul
  have eS : WRAP_START_L.map Char.toUpper = WRAP_START := by decide
  have eE : WRAP_END_L.map Char.toUpper = WRAP_END := by decide
  have eS2 : WRAP_START.map Char.toLower = WRAP_START_L := by decide
  have eE2 : WRAP_END.map Char.toLower = WRAP_END_L := by decide
  unfold has_wrapper
  simp only [Bool.and_eq_true, decide_eq_true_eq, pyLower_length]
  constructor
  · rintro ⟨⟨hp, hsuf⟩, hlen⟩
    refine ⟨?_, ?_, hlen⟩
    · have h2 := isPre_map Char.toUpper _ _ hp
      rwa [eS, hul2] at h2
    · have h2 := endsWith_map Char.toUpper WRAP_END_L (pyLower s) hsuf
      rwa [eE, hul2] at h2
  · rintro ⟨hp, hsuf, hlen⟩
    refine ⟨⟨?_, ?_⟩, hlen⟩
    · have h2 := isPre_map Char.toLower _ _ hp
      rwa [eS2] at h2
    · have h2 := endsWith_map Char.toLower WRAP_END s hsuf
      rwa [eE2] at h2

/-- Shared characterization of `validate_frame`: a candidate is accepted
exactly when it has at least 20 hex digits, starts with one of the two
anchors, and the meter id occurs somewhere in it. -/
theorem validate_frame_iff (t : List Char) :
    validate_frame t = true ↔
      (20 ≤ t.length
        ∧ (isPre COMPACT_ANCHOR t = true ∨ isPre FULL_ANCHOR t = true)
        ∧ ∃ i, isPre METER_ID (t.drop i) = true) := by
  unfold validate_frame
  constructor
  · intro h
    by_cases h1 : t.length < 20
    · rw [if_pos h1] at h
      exact absurd h (by simp)
    · rw [if_neg h1] at h
      by_cases h2 : (isPre COMPACT_ANCHOR t || isPre FULL_ANCHOR t) = true
      · rw [if_neg (by simp [h2])] at h
        by_cases h3 : containsSub METER_ID t = true
        · exact ⟨by omega, by simpa using h2, (containsSub_iff _ _).mp h3⟩
        · rw [if_pos (by simp [Bool.not_eq_true] at h3 ⊢; exact h3)] at h
          exact absurd h (by simp)
      · rw [if_pos (by simp [Bool.not_eq_true] at h2 ⊢; exact h2)] at h
        exact absurd h (by simp)
  · rintro ⟨hl, hanchor, hocc⟩
    have h2 : (isPre COMPACT_ANCHOR t || isPre FULL_ANCHOR t) = true := by
      rcases hanchor with h | h <;> simp [h]
    have h3 : containsSub METER_ID t = true := (containsSub_iff _ _).mpr hocc
    rw [if_neg (by omega), if_neg (by simp [h2]), if_neg (by simp [h3])]

/-- Frames emitted by `extract_wmbus_frames` all pass `validate_frame`. -/
theorem emitted_frames_validate (s t : List Char)
    (h : t ∈ extract_wmbus_frames s) : validate_frame t = true := by
  unfold extract_wmbus_frames at h
  exact (List.mem_filter.mp h).2

/-! ### Claim C4 -/

/-- C4: for every canonical upper-case hex buffer, if it starts with the
4-byte start delimiter `FBFBFBF0`, ends with the 4-byte end delimiter
`FEFE0E0F`, and is longer than 8 bytes (16 hex digits), the stripper
removes exactly 4 bytes (8 hex digits) from each end and flags
`had_wrapper = true`; otherwise it returns the input unchanged with
`had_wrapper = false`.  The stripper is a total function, so it never
raises on malformed input. -/
theorem C4_strip_wrapper (s : List Char) (hu : pyUpper s = s)
    (hul : pyUpper (pyLower s) = s) :
    ((isPre WRAP_START s = true ∧ endsWith WRAP_END s = true ∧ 16 < s.length) →
        strip_wrapper s = ((s.drop 8).take (s.length - 16), true))
  ∧ (¬(isPre WRAP_START s = true ∧ endsWith WRAP_END s = true ∧ 16 < s.length) →
        strip_wrapper s = (s, false)) := by
  constructor
  · intro hcond
    exact strip_wrapper_wrapped hul ((has_wrapper_iff hul).mpr hcond)
  · intro hcond
    refine strip_wrapper_not_wrapped hu ?_
    cases hhw : has_wrapper s with
    | false => rfl
    | true => exact absurd ((has_wrapper_iff hul).mp hhw) hcond

/-- Witness for C4 at the concrete wrapped buffer `sampleWrapped18`. -/
theorem C4_strip_wrapper_witness :
    pyUpper sampleWrapped18 = sampleWrapped18
  ∧ strip_wrapper sampleWrapped18
      = ((sampleWrapped18.drop 8).take (sampleWrapped18.length - 16), true) :=
  ⟨by decide,
   (C4_strip_wrapper sampleWrapped18 (by decide) (by decide)).1
     ⟨by decide, by decide, by decide⟩⟩

/-! ### Claim C8 -/

/-- C8 counterexample: stripping is not idempotent on the code — a
doubly wrapped buffer is stripped again the second time, so
`strip(strip(x)) ≠ strip(x)` at `sampleNested34`. -/
theorem C8_counterexample :
    (strip_wrapper (strip_wrapper sampleNested34).1).1
      ≠ (strip_wrapper sampleNested34).1 := by decide

/-- C8 (amended): stripping a canonical upper-case buffer that has no
wrapper returns it unchanged, and a second strip is a no-op provided
the first strip's core does not itself carry the wrapper pattern
(a nested wrapper is stripped again, so unconditional idempotence
fails, see the counterexample). -/
theorem C8_strip_idem (s : List Char) (hu : pyUpper s = s)
    (hul : pyUpper (pyLower s) = s) :
    (has_wrapper s = false → strip_wrapper s = (s, false))
  ∧ (has_wrapper (strip_wrapper s).1 = false →
      strip_wrapper (strip_wrapper s).1 = ((strip_wrapper s).1, false)) := by
  have hcoreU : pyUpper (strip_wrapper s).1 = (strip_wrapper s).1 := by
    cases hhw : has_wrapper s with
    | false =>
      rw [strip_wrapper_not_wrapped hu hhw]
      exact hu
    | true =>
      rw [strip_wrapper_wrapped hul hhw]
      apply map_eq_self_of_mem
      intro c hc
      have hc2 : c ∈ s.drop 8 := (List.take_subset _ _) hc
      have hc3 : c ∈ s := (List.drop_subset _ _) hc2
      exact map_eq_self_mem hu c hc3
  constructor
  · exact strip_wrapper_not_wrapped hu
  · intro h2
    exact strip_wrapper_not_wrapped hcoreU h2

/-- Witness for C8 at the concrete buffer `sampleWrapped18`, whose core
carries no nested wrapper. -/
theorem C8_strip_idem_witness :
    has_wrapper (strip_wrapper sampleWrapped18).1 = false
  ∧ strip_wrapper (strip_wrapper sampleWrapped18).1
      = ((strip_wrapper sampleWrapped18).1, false) :=
  ⟨by decide,
   (C8_strip_idem sampleWrapped18 (by decide) (by decide)).2 (by decide)⟩

/-! ### Claim C1 -/

/-- C1 counterexample: `sample5970` (a 59-byte unwrapped notification
starting with the compact anchor and containing the meter id) is
emitted whole by the pipeline, yet its declared length byte is
0x25 = 37 while its remaining byte count is 58 — so the claimed
length-byte invariant does not hold for emitted telegrams, and the
validator has no `length-byte-mismatch` check. -/
theorem C1_counterexample :
    extract_wmbus_frames sample5970 = [sample5970]
  ∧ firstByte sample5970 ≠ byteLen sample5970 - 1 := by decide

/-- C1 (amended): the length-byte invariant does hold for every frame
cut by the 244-byte multi-frame window scan (used for 244-byte inputs
and as the fallback): each such frame starts with an anchor whose
leading byte (0x25 or 0x30) equals its remaining byte count (the
windows are exactly 76 resp. 98 hex digits), i.e.
`length = 2 * (firstByte + 1)`.  The validator itself performs no
length-byte check, so telegrams emitted by the 59/70-byte rule can
violate the invariant (see the counterexample). -/
theorem C1_window_length_byte (hex_data t : List Char)
    (ht : t ∈ extract_frames_244_bytes hex_data) :
    t.length = 2 * (firstByte t + 1) := by
  unfold extract_frames_244_bytes at ht
  obtain ⟨w, hw, rfl⟩ := List.mem_map.mp ht
  obtain ⟨hinv, -, -⟩ :=
    scan244F_inv ((pyUpper hex_data).length + 1) (pyUpper hex_data) 0
  obtain ⟨-, h76, hfit, hanchor⟩ := hinv w hw
  have hlen : (((pyUpper hex_data).drop w.1).take w.2).length = w.2 := by
    rw [List.length_take, List.length_drop]
    omega
  rcases hanchor with ⟨h2, hpre⟩ | ⟨h2, hpre⟩
  · have hpre2 : isPre COMPACT_ANCHOR (((pyUpper hex_data).drop w.1).take w.2) = true :=
      isPre_take _ _ _ hpre (by rw [h2]; decide)
    have e : COMPACT_ANCHOR = '2' :: '5' :: "442D2C".toList := by decide
    rw [e] at hpre2
    obtain ⟨t1, he1, hp1⟩ := isPre_cons_dest hpre2
    obtain ⟨t2, he2, -⟩ := isPre_cons_dest hp1
    rw [hlen, he1, he2, h2]
    show (76 : Nat) = 2 * (16 * hexDigitVal '2' + hexDigitVal '5' + 1)
    decide
  · have hpre2 : isPre FULL_ANCHOR (((pyUpper hex_data).drop w.1).take w.2) = true :=
      isPre_take _ _ _ hpre (by rw [h2]; decide)
    have e : FULL_ANCHOR = '3' :: '0' :: "442D2C".toList := by decide
    rw [e] at hpre2
    obtain ⟨t1, he1, hp1⟩ := isPre_cons_dest hpre2
    obtain ⟨t2, he2, -⟩ := isPre_cons_dest hp1
    rw [hlen, he1, he2, h2]
    show (98 : Nat) = 2 * (16 * hexDigitVal '3' + hexDigitVal '0' + 1)
    decide

/-- Witness for the amended C1 at the concrete compact frame
`sample76`, which the window scan extracts from itself. -/
theorem C1_window_length_byte_witness :
    sample76 ∈ extract_frames_244_bytes sample76
  ∧ sample76.length = 2 * (firstByte sample76 + 1) :=
  ⟨by decide, C1_window_length_byte sample76 sample76 (by decide)⟩

/-! ### Claim C3 -/

/-- C3 counterexample: `sampleOffsetId` is emitted by the pipeline even
though the meter id does not sit at the expected fixed offset from the
anchor (the 12 hex digits directly after the anchor differ from the
id): the validator only tests substring containment, anywhere in the
candidate. -/
theorem C3_counterexample :
    extract_wmbus_frames sampleOffsetId = [sampleOffsetId]
  ∧ (sampleOffsetId.drop 8).take 12 ≠ METER_ID := by decide

/-- C3 (amended): a candidate is accepted by the validator if and only
if it is at least 20 hex digits long, begins with one of the two
recognized anchors, and contains the target meter id somewhere in the
candidate (not necessarily at a fixed offset from the anchor); and
every frame emitted by the pipeline passes the validator (rejected
candidates are never emitted). -/
theorem C3_validate_accept :
    (∀ t, validate_frame t = true ↔
      (20 ≤ t.length
        ∧ (isPre COMPACT_ANCHOR t = true ∨ isPre FULL_ANCHOR t = true)
        ∧ ∃ i, isPre METER_ID (t.drop i) = true))
  ∧ (∀ s t, t ∈ extract_wmbus_frames s → validate_frame t = true) :=
  ⟨validate_frame_iff, emitted_frames_validate⟩

/-- Witness for C3 at the concrete frame `sample76`. -/
theorem C3_validate_accept_witness : validate_frame sample76 = true :=
  (C3_validate_accept.1 sample76).mpr
    ⟨by decide, Or.inl (by decide), 8, by decide⟩

/-! ### Claim C5 -/

/-- C5: a 192-hex-digit (96-byte) notification is trimmed by discarding
exactly the first 108 and last 8 hex digits of the original
notification (the extractor never wrapper-strips it first), leaving
characters 108..183 as the sole candidate; when that slice is a valid
compact-anchor frame containing the meter id, exactly one 76-hex-digit
(38-byte) telegram is emitted and accepted. -/
theorem C5_extract96 (s : List Char) (h192 : s.length = 192)
    (ha : isPre COMPACT_ANCHOR ((s.drop 108).take 76) = true)
    (hid : containsSub METER_ID ((s.drop 108).take 76) = true) :
    extract_frames_96_bytes s = [(s.drop 108).take 76]
  ∧ extract_wmbus_frames s = [(s.drop 108).take 76]
  ∧ ((s.drop 108).take 76).length = 76 := by
  have hslice : s.length - 116 = 76 := by omega
  have hlen76 : ((s.drop 108).take 76).length = 76 := by
    rw [List.length_take, List.length_drop]
    omega
  have hca : containsAnchor ((s.drop 108).take 76) = true := by
    unfold containsAnchor
    have : containsSub COMPACT_ANCHOR ((s.drop 108).take 76) = true :=
      (containsSub_iff _ _).mpr ⟨0, by simpa using ha⟩
    simp [this]
  have hfe : extract_frames_96_bytes s = [(s.drop 108).take 76] := by
    unfold extract_frames_96_bytes
    rw [hslice, if_pos h192, if_pos (by omega),
        if_pos ⟨by rw [hlen76], hca⟩]
  have hval : validate_frame ((s.drop 108).take 76) = true :=
    (validate_frame_iff _).mpr
      ⟨by rw [hlen76]; omega, Or.inl ha, (containsSub_iff _ _).mp hid⟩
  have hmain : extract_wmbus_frames s = [(s.drop 108).take 76] := by
    unfold extract_wmbus_frames
    rw [if_neg (by omega), if_pos h192, hfe]
    simp [List.filter_cons, hval]
  exact ⟨hfe, hmain, hlen76⟩

set_option maxRecDepth 4000 in
/-- Witness for C5 at the concrete 192-hex-digit notification
`sample192`, whose characters 108..183 are the frame `sample76`. -/
theorem C5_extract96_witness :
    extract_wmbus_frames sample192 = [(sample192.drop 108).take 76]
  ∧ ((sample192.drop 108).take 76).length = 76 :=
  ⟨(C5_extract96 sample192 (by decide) (by decide) (by decide)).2.1,
   (C5_extract96 sample192 (by decide) (by decide) (by decide)).2.2⟩

/-! ### Claim C6 -/

/-- C6: for every 118- or 140-hex-digit (59- or 70-byte) notification,
if the buffer carries the wrapper (starts with `FBFBFBF0` and ends with
`FEFE0E0F`) the stripped core is taken as the single candidate (at
these lengths the core, 102 resp. 124 hex digits, is never too short,
so it is always kept); if the buffer is unwrapped, the whole buffer is
taken as the sole candidate exactly when it contains a recognizable
anchor pattern, and no candidate is produced otherwise. -/
theorem C6_extract5970 (s : List Char) (h : s.length = 118 ∨ s.length = 140) :
    ((isPre WRAP_START s = true ∧ endsWith WRAP_END s = true) →
        extract_frames_59_70_bytes s = [(s.drop 8).take (s.length - 16)])
  ∧ (¬(isPre WRAP_START s = true ∧ endsWith WRAP_END s = true) →
        extract_frames_59_70_bytes s =
          if containsAnchor s = true then [s] else []) := by
  have hget : ((s.drop 8).take (s.length - 16)).length = s.length - 16 := by
    rw [List.length_take, List.length_drop]
    omega
  constructor
  · rintro ⟨hp, he⟩
    unfold extract_frames_59_70_bytes
    rcases h with h | h
    · rw [if_pos h, if_pos (by rw [hp, he]; rfl),
          if_pos (by rw [hget]; omega)]
    · rw [if_neg (by omega), if_pos h, if_pos (by rw [hp, he]; rfl),
          if_pos (by rw [hget]; omega)]
  · intro hnc
    have hb : (isPre WRAP_START s && endsWith WRAP_END s) = false := by
      cases hps : isPre WRAP_START s <;> cases hes : endsWith WRAP_END s <;>
        simp_all
    unfold extract_frames_59_70_bytes
    rcases h with h | h
    · rw [if_pos h, if_neg (by simp [hb])]
    · rw [if_neg (by omega), if_pos h, if_neg (by simp [hb])]

/-- Witness for C6 at the concrete wrapped 118-hex-digit notification
`sampleWrapped118`. -/
theorem C6_extract5970_witness :
    extract_frames_59_70_bytes sampleWrapped118
      = [(sampleWrapped118.drop 8).take (sampleWrapped118.length - 16)] :=
  (C6_extract5970 sampleWrapped118 (Or.inl (by decide))).1
    ⟨by decide, by decide⟩

/-! ### Claim C9 -/

/-- C9: for a notification whose hex length is not 118, 140, 192 or 488
(59, 70, 96 or 244 bytes), the extractor falls back to the 244-byte
multi-frame scan whenever an anchor occurs anywhere in the buffer, and
emits nothing when no anchor occurs; being a total function, it cannot
crash on any input. -/
theorem C9_fallback (s : List Char)
    (h1 : s.length ≠ 118) (h2 : s.length ≠ 140) (h3 : s.length ≠ 192)
    (h4 : s.length ≠ 488) :
    (containsAnchor s = true →
        extract_wmbus_frames s = (extract_frames_244_bytes s).filter validate_frame)
  ∧ (containsAnchor s = false → extract_wmbus_frames s = []) := by
  constructor
  · intro hc
    unfold extract_wmbus_frames
    rw [if_neg (by omega), if_neg h3, if_neg h4, if_pos hc]
  · intro hc
    unfold extract_wmbus_frames
    rw [if_neg (by omega), if_neg h3, if_neg h4, if_neg (by simp [hc])]
    rfl

/-- Witness for C9 at the concrete 10-hex-digit buffer
`sampleFallback10`, which contains the compact anchor. -/
theorem C9_fallback_witness :
    extract_wmbus_frames sampleFallback10
      = (extract_frames_244_bytes sampleFallback10).filter validate_frame :=
  (C9_fallback sampleFallback10 (by decide) (by decide) (by decide)
    (by decide)).1 (by decide)

/-! ### Claim C7 -/

/-- C7: in the 244-byte multi-frame scan, each emitted candidate is cut
from a window of the buffer, consecutive windows satisfy
`start + size ≤ next start` pairwise (the cursor never moves backward
and advances past each emitted window), and every window lies inside
the buffer — hence no two emitted candidates share any byte offset of
the input. -/
theorem C7_nonoverlap (hex_data : List Char) :
    extract_frames_244_bytes hex_data
      = (scan244F ((pyUpper hex_data).length + 1) (pyUpper hex_data) 0).map
          (fun w => ((pyUpper hex_data).drop w.1).take w.2)
  ∧ List.Pairwise (fun w v => w.1 + w.2 ≤ v.1)
      (scan244F ((pyUpper hex_data).length + 1) (pyUpper hex_data) 0)
  ∧ ∀ w ∈ scan244F ((pyUpper hex_data).length + 1) (pyUpper hex_data) 0,
      w.1 + w.2 ≤ hex_data.length := by
  obtain ⟨hm, hp, -⟩ :=
    scan244F_inv ((pyUpper hex_data).length + 1) (pyUpper hex_data) 0
  refine ⟨rfl, hp, fun w hw => ?_⟩
  have h1 := (hm w hw).2.2.1
  have h2 : (pyUpper hex_data).length = hex_data.length := by simp [pyUpper]
  omega

/-- Witness for C7 at the concrete buffer `sample76`. -/
theorem C7_nonoverlap_witness :
    List.Pairwise (fun w v => w.1 + w.2 ≤ v.1)
      (scan244F ((pyUpper sample76).length + 1) (pyUpper sample76) 0) :=
  (C7_nonoverlap sample76).2.1

/-! ### Claim C10 -/

/-- Candidate-count bound for the 59/70-byte rule. -/
theorem extract_frames_59_70_len_le (s : List Char) :
    (extract_frames_59_70_bytes s).length ≤ 1 := by
  unfold extract_frames_59_70_bytes
  repeat' split
  all_goals simp

/-- Candidate-count bound for the 96-byte rule. -/
theorem extract_frames_96_len_le (s : List Char) :
    (extract_frames_96_bytes s).length ≤ 1 := by
  unfold extract_frames_96_bytes
  repeat' split
  all_goals simp

/-- C10: frame extraction terminates on every input and returns a
finite list.  The multi-frame scan loop, modelled with an explicit
iteration bound, gives the same result for every bound larger than the
buffer length (so the unbounded `while` loop terminates: its cursor
strictly advances by a full window per emitted frame); moreover each
window consumes at least 76 hex digits of the buffer, bounding the
number of extracted frames, and the overall pipeline emits at most
`length` frames on any input. -/
theorem C10_termination (hex_data : List Char) (fuel : Nat)
    (hfuel : hex_data.length < fuel) :
    scan244F fuel (pyUpper hex_data) 0
      = scan244F ((pyUpper hex_data).length + 1) (pyUpper hex_data) 0
  ∧ 76 * (extract_frames_244_bytes hex_data).length ≤ hex_data.length
  ∧ (extract_wmbus_frames hex_data).length ≤ hex_data.length := by
  have hlenU : (pyUpper hex_data).length = hex_data.length := by simp [pyUpper]
  have hcount : 76 * (extract_frames_244_bytes hex_data).length ≤ hex_data.length := by
    obtain ⟨-, -, hc⟩ :=
      scan244F_inv ((pyUpper hex_data).length + 1) (pyUpper hex_data) 0
    unfold extract_frames_244_bytes
    rw [List.length_map]
    omega
  refine ⟨scan244F_congr fuel _ _ 0 (by omega) (by omega), hcount, ?_⟩
  have hfil : ∀ l : List (List Char),
      (l.filter validate_frame).length ≤ l.length :=
    fun l => List.length_filter_le _ l
  unfold extract_wmbus_frames
  by_cases c1 : hex_data.length = 118 ∨ hex_data.length = 140
  · rw [if_pos c1]
    have := hfil (extract_frames_59_70_bytes hex_data)
    have := extract_frames_59_70_len_le hex_data
    omega
  · rw [if_neg c1]
    by_cases c2 : hex_data.length = 192
    · rw [if_pos c2]
      have := hfil (extract_frames_96_bytes hex_data)
      have := extract_frames_96_len_le hex_data
      omega
    · rw [if_neg c2]
      by_cases c3 : hex_data.length = 488
      · rw [if_pos c3]
        have := hfil (extract_frames_244_bytes hex_data)
        omega
      · rw [if_neg c3]
        by_cases c4 : containsAnchor hex_data = true
        · rw [if_pos c4]
          have := hfil (extract_frames_244_bytes hex_data)
          omega
        · rw [if_neg c4]
          simp

/-- Witness for C10 at the concrete buffer `sample76` with iteration
bound 100. -/
theorem C10_termination_witness :
    sample76.length < 100
  ∧ scan244F 100 (pyUpper sample76) 0
      = scan244F ((pyUpper sample76).length + 1) (pyUpper sample76) 0 :=
  ⟨by decide, (C10_termination sample76 100 (by decide)).1⟩

/-! ### Claim C2 -/

/-- C2: the 488-hex-digit (244-byte) multi-frame scan walks left to
right, cutting a 98-hex-digit window at each full anchor and advancing
the cursor to the end of the window; on a notification consisting of
two full-anchor frames back to back with no gap (followed by
anchor-free padding), it yields exactly the two 49-byte frames, the
second starting exactly where the first ends.  If a selected window
would overrun the buffer the loop breaks and that match yields no
candidate (modelled in `step244`). -/
theorem C2_scan (f1 f2 rest : List Char)
    (h1 : f1.length = 98) (h2 : f2.length = 98)
    (ha1 : isPre FULL_ANCHOR f1 = true) (ha2 : isPre FULL_ANCHOR f2 = true)
    (hr1 : containsSub COMPACT_ANCHOR rest = false)
    (hr2 : containsSub FULL_ANCHOR rest = false)
    (hup : pyUpper (f1 ++ f2 ++ rest) = f1 ++ f2 ++ rest)
    (hlen : (f1 ++ f2 ++ rest).length = 488) :
    extract_frames_244_bytes (f1 ++ f2 ++ rest) = [f1, f2] := by
  set data := f1 ++ f2 ++ rest with hdata
  have hassoc : data = f1 ++ (f2 ++ rest) := by rw [hdata, List.append_assoc]
  have hd98 : data.drop 98 = f2 ++ rest := by
    rw [hassoc]
    exact List.drop_left' h1
  have hd196 : data.drop 196 = rest := by
    have h12 : (f1 ++ f2).length = 196 := by rw [List.length_append]; omega
    rw [hdata]
    exact List.drop_left' h12
  have hstep0 : step244 data 0 = some (0, 98) := by
    have hf0 : pyFind data FULL_ANCHOR 0 = some 0 := by
      apply pyFind_of_pre_at
      rw [List.drop_zero, hassoc]
      exact isPre_extend _ _ _ ha1
    unfold step244
    cases hc : pyFind data COMPACT_ANCHOR 0 with
    | none =>
      rw [hf0]
      show (if (0 : Nat) + 98 ≤ data.length then some ((0 : Nat), (98 : Nat))
            else none) = some (0, 98)
      rw [if_pos (by omega)]
    | some c =>
      rw [hf0]
      show (if c < 0 then
              if c + 76 ≤ data.length then some (c, (76 : Nat)) else none
            else if (0 : Nat) + 98 ≤ data.length then some ((0 : Nat), (98 : Nat))
            else none) = some (0, 98)
      rw [if_neg (by omega), if_pos (by omega)]
  have hstep98 : step244 data 98 = some (98, 98) := by
    have hf98 : pyFind data FULL_ANCHOR 98 = some 98 := by
      apply pyFind_of_pre_at
      rw [hd98]
      exact isPre_extend _ _ _ ha2
    unfold step244
    cases hc : pyFind data COMPACT_ANCHOR 98 with
    | none =>
      rw [hf98]
      show (if (98 : Nat) + 98 ≤ data.length then some ((98 : Nat), (98 : Nat))
            else none) = some (98, 98)
      rw [if_pos (by omega)]
    | some c =>
      have hge : 98 ≤ c := pyFind_ge hc
      rw [hf98]
      show (if c < 98 then
              if c + 76 ≤ data.length then some (c, (76 : Nat)) else none
            else if (98 : Nat) + 98 ≤ data.length then some ((98 : Nat), (98 : Nat))
            else none) = some (98, 98)
      rw [if_neg (by omega), if_pos (by omega)]
  have hstep196 : step244 data 196 = none := by
    have hcn : pyFind data COMPACT_ANCHOR 196 = none := by
      unfold pyFind
      rw [hd196, containsSub_false_aux hr1]
      rfl
    have hfn : pyFind data FULL_ANCHOR 196 = none := by
      unfold pyFind
      rw [hd196, containsSub_false_aux hr2]
      rfl
    unfold step244
    rw [hcn, hfn]
  have hscan : scan244F (data.length + 1) data 0 = [(0, 98), (98, 98)] := by
    rw [hlen]
    rw [scan244F_succ_some 488 data 0 (0, 98) (by omega) hstep0]
    show ((0 : Nat), (98 : Nat)) :: scan244F 488 data 98 = [(0, 98), (98, 98)]
    rw [show (488 : Nat) = 487 + 1 from by norm_num]
    rw [scan244F_succ_some 487 data 98 (98, 98) (by omega) hstep98]
    show ((0 : Nat), (98 : Nat)) :: ((98 : Nat), (98 : Nat))
        :: scan244F 487 data 196 = [(0, 98), (98, 98)]
    rw [show (487 : Nat) = 486 + 1 from by norm_num]
    rw [scan244F_succ_none 486 data 196 (by omega) hstep196]
  unfold extract_frames_244_bytes
  rw [hup, hscan]
  simp only [List.map_cons, List.map_nil]
  show [(data.drop 0).take 98, (data.drop 98).take 98] = [f1, f2]
  rw [List.drop_zero, hd98, hassoc, List.take_left' h1, List.take_left' h2]

set_option maxRecDepth 40000 in
/-- Witness for C2: two concrete back-to-back full frames followed by
anchor-free padding are extracted as exactly those two frames. -/
theorem C2_scan_witness :
    extract_frames_244_bytes (sampleFull98 ++ sampleFull98 ++ sampleRest292)
      = [sampleFull98, sampleFull98] :=
  C2_scan sampleFull98 sampleFull98 sampleRest292 (by decide) (by decide)
    (by decide) (by decide) (by decide) (by decide) (by decide) (by decide)
